import Mathlib

/-!
# mod_go: configuration events and module validation

A shallow embedding of `src/main/mod_go.c` (`update` and `validate`) and the
properties of its natural-language specification.

C strings and `char` arrays are lists of characters: a `char[N]` array is the
list of its `N` bytes, and the string it holds is the run of bytes before the
first NUL (`cstr`).  The operating system (directory probing, the pthread
calls, the file system, the dynamic loader) and the untrusted plugin image are
explicit parameters of the embedded functions.
-/

namespace ModGo

/-! ## C strings and character buffers -/

/-- The terminating byte of a C string. -/
def NUL : Char := Char.ofNat 0

/-- The string held by the memory `mem`: the bytes before the first NUL. -/
def cstr (mem : List Char) : List Char := mem.takeWhile (fun c => c != NUL)

/-- Overwrite `buf` from offset `off` on with `bytes`. -/
def store (buf : List Char) (off : Nat) (bytes : List Char) : List Char :=
  buf.take off ++ bytes ++ buf.drop (off + bytes.length)

/-- The call `strncpy(dst + off, src, n)`: at most `n` bytes of the string at `src` are
copied, and the rest of the `n` bytes is filled with NUL. -/
def strncpy (dst : List Char) (off : Nat) (src : List Char) (n : Nat) : List Char :=
  let s := (cstr src).take n
  store dst off (s ++ List.replicate (n - s.length) NUL)

/-- The byte `buf[0]`. -/
def first (buf : List Char) : Char := buf.headD NUL

/-! ## Types -/

/-- Modelled from the spec: `mod_go_config` is declared in
`aerospike/mod_go_config.h`, which is not among the sources; the spec gives it
one field, the plugin search path, a bounded string of 256 bytes (the bound
also read off the `strncpy` calls of `update`). -/
structure mod_go_config where
  user_path : List Char
  deriving DecidableEq

/-- The one lock object a context can point to (`&mod_go_lock`). -/
inductive rwlock where
  | mod_go_lock
  deriving DecidableEq

/-- The type `struct context_s`; `lock = none` is the NULL pointer. -/
structure context where
  config : mod_go_config
  lock : Option rwlock
  deriving DecidableEq

/-- The constant `MOD_GO_CONFIG_USRPATH`. -/
def MOD_GO_CONFIG_USRPATH : List Char := "/opt/aerospike/usr/udf/go".toList

/-- The static context `mod_go_source` of process start: the default path in a
zero-filled 256-byte array, and no lock. -/
def mod_go_source : context :=
  { config := { user_path := MOD_GO_CONFIG_USRPATH ++
      List.replicate (256 - MOD_GO_CONFIG_USRPATH.length) NUL },
    lock := none }

/-- The part of `as_module` that `update` and `validate` read: `source`, which
may be NULL. -/
structure as_module where
  source : Option context
  deriving DecidableEq

/-- The type `as_module_event`: the event type together with the member of `data` that
the type selects (`filename = none` is the NULL pointer). -/
inductive as_module_event where
  | CONFIGURE (config : mod_go_config)
  | FILE_SCAN
  | FILE_ADD (filename : Option (List Char))
  | FILE_REMOVE (filename : Option (List Char))
  | CLEAR_CACHE

/-- What the platform answers to the calls `update` makes.  There is no
answer of `pthread_rwlock_init`: the one call of it has no defined outcome
(see `lock_block`). -/
structure Platform where
  /-- whether the code is compiled with `__linux__` defined -/
  linux : Bool
  /-- the value `pthread_rwlockattr_init` returns -/
  pthread_rwlockattr_init : Int
  /-- the value `pthread_rwlockattr_setkind_np` returns -/
  pthread_rwlockattr_setkind_np : Int
  /-- whether `opendir` of a path returns a directory handle -/
  opendir : List Char → Bool

/-! ## `update` -/

/-- How the block `if ( ctx->lock == NULL ) { ... }` of the CONFIGURE case
ends. -/
inductive lock_block_end where
  /-- a call on the lock attributes failed: `return 3` -/
  | returns_3
  /-- the call `pthread_rwlock_init(ctx->lock, &rwattr)` is reached: `ctx->lock`
  points to `mod_go_lock`, an object defined `static const`, and the call
  writes it, which is undefined behaviour -/
  | undefined
  /-- the lock was there already and the block is skipped -/
  | skipped
  deriving DecidableEq

/-- The block `if ( ctx->lock == NULL ) { ... }` of the CONFIGURE case. -/
def lock_block (os : Platform) (ctx : context) : lock_block_end :=
  if ctx.lock = none then
    if os.linux then
      if os.pthread_rwlockattr_init != 0 then .returns_3
      else if os.pthread_rwlockattr_setkind_np != 0 then .returns_3
      else .undefined
    else
      if os.pthread_rwlockattr_init != 0 then .returns_3
      else .undefined
  else .skipped

/-- The function `update`: the status it returns and the module afterwards;
`none` is undefined behaviour. -/
def update (os : Platform) (m : Option as_module) (e : as_module_event) :
    Option (Int × Option as_module) :=
  match (match m with | some mm => mm.source | none => none) with
  | none => some (1, m)
  | some ctx =>
    match e with
    | .CONFIGURE config =>
      match lock_block os ctx with
      | .returns_3 =>
        -- `ctx->lock = &mod_go_lock` comes before the calls that fail
        some (3, some { source := some { ctx with lock := some .mod_go_lock } })
      | .undefined => none
      | .skipped =>
        if first config.user_path != NUL then
          if os.opendir (cstr config.user_path) = false then
            -- `dir == 0`
            let p0 := store ctx.config.user_path 0 [NUL]
            let p1 := strncpy p0 1 config.user_path 255
            some (0, some { source := some { ctx with config := { user_path := p1 } } })
          else
            let p1 := strncpy ctx.config.user_path 0 config.user_path 256
            some (0, some { source := some { ctx with config := { user_path := p1 } } })
        else
          some (0, some { source := some ctx })
    | .FILE_SCAN =>
      if first ctx.config.user_path == NUL then some (2, m) else some (0, m)
    | .FILE_ADD filename =>
      if filename = none then some (2, m) else some (0, m)
    | .FILE_REMOVE filename =>
      if filename = none then some (2, m) else some (0, m)
    | .CLEAR_CACHE => some (0, m)

/-- The stored user path of a module, as a string (empty when there is no
context). -/
def stored_user_path (m : Option as_module) : List Char :=
  match (match m with | some mm => mm.source | none => none) with
  | none => []
  | some ctx => cstr ctx.config.user_path

/-! ## `validate` -/

/-- Conversion of a `size_t` value to `int` (32 bits, two's complement). -/
def toInt32 (n : Nat) : Int :=
  if n % 2 ^ 32 < 2 ^ 31 then ((n % 2 ^ 32 : Nat) : Int) else ((n % 2 ^ 32 : Nat) : Int) - 2 ^ 32

/-- The call `memcpy(buf + off, src, n)` into the array `buf`.  A negative `n` becomes a
huge `size_t`; a copy that does not fit the array is undefined behaviour
(`none`). -/
def memcpy (buf : List Char) (off : Nat) (src : List Char) (n : Int) : Option (List Char) :=
  if n < 0 then none
  else if off + n.toNat ≤ buf.length then some (store buf off (src.take n.toNat))
  else none

/-- The type `as_module_error` (declared in aerospike-common). -/
structure as_module_error where
  scope : Nat
  code : Nat
  message : List Char
  file : List Char
  line : Nat
  func : List Char
  deriving DecidableEq

/-- A loaded plugin image: the symbols `dlsym` finds in it and what its entry
points return when `validate` calls them (an entry point answers the same
argument with the same value). -/
structure Plugin where
  /-- whether `dlsym` finds the symbol (`dlerror()` is then NULL) -/
  exports : String → Bool
  aerospike_udf_go_get_api_version_major : Int
  aerospike_udf_go_get_api_version_minor : Int
  aerospike_udf_go_get_property : String → String
  aerospike_udf_go_setup : Int
  aerospike_udf_go_apply_record : String → Int
  aerospike_udf_go_apply_stream : String → Int

/-- The file system and the dynamic loader, as `validate` sees them. -/
structure World where
  /-- whether `fopen(path, "w")` returns a stream -/
  fopen : List Char → Bool
  /-- the number of bytes `fwrite` reports written, for a path, a content and
  the size asked for -/
  fwrite : List Char → List Char → Nat → Nat
  /-- the image `dlopen` loads from a path, `none` when it returns NULL -/
  dlopen : List Char → Option Plugin

/-- The calls `validate` makes that the properties speak of, in order. -/
inductive Event where
  | fopen (path : List Char)
  | fwrite (size : Nat)
  | fclose
  | dlopen (path : List Char)
  | dlsym (symbol : String)
  | get_api_version_major
  | get_api_version_minor
  | get_property (name : String)
  | setup
  | apply_record (name : String)
  | free_dlresult
  | dlclose
  | unlink (path : List Char)
  deriving DecidableEq

/-- What a call of `validate` leaves behind: the status returned, `*err`, the
string in `filepath`, the locals `plugin` and `plugin_supports_dlclose` as
they are at the return, the files on disk and the calls made. -/
structure Outcome where
  rc : Int
  err : as_module_error
  filepath : List Char
  plugin : Option Plugin
  plugin_supports_dlclose : Bool
  disk : List (List Char)
  trace : List Event

/-- The block of `validate` that fills `char filepath[1024] = {0}`; `none` is
a copy past the end of the array. -/
def build_filepath (ctx : context) (filename : List Char) : Option (List Char) :=
  let filepath := List.replicate 1024 NUL
  let p : Nat := 0
  let pfx := "validate.".toList
  let prefix_len : Int := toInt32 (cstr pfx).length
  let user_path := ctx.config.user_path
  let user_path_len : Nat := (cstr user_path).length
  let filename_len : Int := toInt32 (cstr filename).length
  (memcpy filepath p user_path ((cstr user_path).length : Nat)).bind fun b1 =>
  let p := p + user_path_len
  (memcpy b1 p ['/'] 1).bind fun b2 =>
  let p := p + 1
  (memcpy b2 p pfx prefix_len).bind fun b3 =>
  let p := p + prefix_len.toNat
  (memcpy b3 p filename filename_len).bind fun b4 =>
  let p := p + filename_len.toNat
  if p < b4.length then some (store b4 p [NUL]) else none

/-- The label `Cleanup:` of `validate` and what follows it.  The call
`free(dlresult)` is recorded as an event; the heap is not modelled.  The
`unlink` removes the path from the files on disk. -/
def Cleanup (filepath : List Char) (err : as_module_error) (dlresult : Option String)
    (plugin : Option Plugin) (plugin_supports_dlclose : Bool)
    (disk : List (List Char)) (trace : List Event) : Outcome :=
  let t1 := if dlresult.isSome then trace ++ [Event.free_dlresult] else trace
  let t2 := if plugin_supports_dlclose && plugin.isSome then t1 ++ [Event.dlclose] else t1
  -- remove validation .so from disk
  { rc := (err.code : Int), err := err, filepath := filepath, plugin := plugin,
    plugin_supports_dlclose := plugin_supports_dlclose,
    disk := disk.filter (fun f => f != filepath),
    trace := t2 ++ [Event.unlink filepath] }

/-- The diagnostic `dlerror()` returns after a `dlsym` that found nothing. -/
def dlerror_msg (symbol : String) : Option String := some ("undefined symbol: " ++ symbol)

/-- The function `validate`, for the files `disk` present at the call; `none`
is undefined behaviour: a NULL `m->source`, a path that overflows `filepath`,
or a `dlopen` that fails, after which `Cleanup` tests and frees the local
`dlresult` that was never assigned. -/
def validate (w : World) (disk : List (List Char)) (m : as_module)
    (filename content : List Char) (size : Nat) (err : as_module_error) : Option Outcome :=
  let err : as_module_error :=
    { scope := 0, code := 0, message := store err.message 0 [NUL],
      file := store err.file 0 [NUL], line := 0, func := store err.func 0 [NUL] }
  match m.source with
  | none => none
  | some ctx =>
  match build_filepath ctx filename with
  | none => none
  | some buf =>
  let filepath := cstr buf
  -- write validation so to disk
  if w.fopen filepath = false then
    some { rc := -1, err := err, filepath := filepath, plugin := none,
           plugin_supports_dlclose := false, disk := disk, trace := [.fopen filepath] }
  else
  let disk := if filepath ∈ disk then disk else filepath :: disk
  let r : Int := toInt32 (w.fwrite filepath content size)
  if r ≤ 0 then
    some { rc := -1, err := err, filepath := filepath, plugin := none,
           plugin_supports_dlclose := false, disk := disk,
           trace := [.fopen filepath, .fwrite size, .fclose] }
  else
  let t := [Event.fopen filepath, .fwrite size, .fclose, .dlopen filepath]
  match w.dlopen filepath with
  | none =>
    -- `err->code = 10; goto Cleanup;` with `dlresult` never assigned: `Cleanup`
    -- reads the uninitialised pointer and hands it to `free`
    none
  | some plugin =>
  -- locate api version functions
  let t := t ++ [.dlsym "aerospike_udf_go_get_api_version_major"]
  if plugin.exports "aerospike_udf_go_get_api_version_major" = false then
    some (Cleanup filepath { err with code := 20 }
      (dlerror_msg "aerospike_udf_go_get_api_version_major") (some plugin) false disk t)
  else
  let t := t ++ [.dlsym "aerospike_udf_go_get_api_version_minor"]
  if plugin.exports "aerospike_udf_go_get_api_version_minor" = false then
    some (Cleanup filepath { err with code := 21 }
      (dlerror_msg "aerospike_udf_go_get_api_version_minor") (some plugin) false disk t)
  else
  -- get and check version
  let vmajor := plugin.aerospike_udf_go_get_api_version_major
  let t := t ++ [.get_api_version_major]
  if vmajor ≠ 1 then
    some (Cleanup filepath { err with code := 22 } none (some plugin) false disk t)
  else
  let t := t ++ [.get_api_version_minor]
  -- load v1 functions
  let t := t ++ [.dlsym "aerospike_udf_go_get_property"]
  if plugin.exports "aerospike_udf_go_get_property" = false then
    some (Cleanup filepath { err with code := 30 }
      (dlerror_msg "aerospike_udf_go_get_property") (some plugin) false disk t)
  else
  let t := t ++ [.dlsym "aerospike_udf_go_setup"]
  if plugin.exports "aerospike_udf_go_setup" = false then
    some (Cleanup filepath { err with code := 31 }
      (dlerror_msg "aerospike_udf_go_setup") (some plugin) false disk t)
  else
  let t := t ++ [.dlsym "aerospike_udf_go_apply_record"]
  if plugin.exports "aerospike_udf_go_apply_record" = false then
    some (Cleanup filepath { err with code := 32 }
      (dlerror_msg "aerospike_udf_go_apply_record") (some plugin) false disk t)
  else
  let t := t ++ [.dlsym "aerospike_udf_go_apply_stream"]
  if plugin.exports "aerospike_udf_go_apply_stream" = false then
    some (Cleanup filepath { err with code := 33 }
      (dlerror_msg "aerospike_udf_go_apply_stream") (some plugin) false disk t)
  else
  -- check wether dlclose is supported
  let supportsDlclose := plugin.aerospike_udf_go_get_property "dlclose-supported"
  let t := t ++ [.get_property "dlclose-supported"]
  let plugin_supports_dlclose : Bool := supportsDlclose == "true"
  -- get connection package name and version, and the go version
  let t := t ++ [.get_property "conn-name", .get_property "conn-version",
    .get_property "go-version"]
  -- call setup function
  let res := plugin.aerospike_udf_go_setup
  let t := t ++ [.setup]
  if res ≠ 0 then
    some (Cleanup filepath { err with code := 41 } none (some plugin)
      plugin_supports_dlclose disk t)
  else
  let applyResHelloWorld := plugin.aerospike_udf_go_apply_record "HelloWorld"
  let t := t ++ [.apply_record "HelloWorld"]
  if applyResHelloWorld ≠ 0 then
    some (Cleanup filepath { err with code := 254 } none (some plugin)
      plugin_supports_dlclose disk t)
  else
  let applyResFoobar := plugin.aerospike_udf_go_apply_record "Foobar"
  let t := t ++ [.apply_record "Foobar"]
  if applyResFoobar ≠ 0 then
    some (Cleanup filepath { err with code := 254 } none (some plugin)
      plugin_supports_dlclose disk t)
  else
    some (Cleanup filepath err none (some plugin) plugin_supports_dlclose disk t)

/-! ## Vocabulary of the properties -/

/-- The module whose source is the context `ctx`. -/
def module_of (ctx : context) : Option as_module := some { source := some ctx }

/-- The string the specification gives for the scratch path:
`<user path>/validate.<module name>`. -/
def scratch_path (user_path filename : List Char) : List Char :=
  cstr user_path ++ ['/'] ++ "validate.".toList ++ cstr filename

/-- The path fits `filepath[1024]` together with its terminator. -/
def path_fits (user_path filename : List Char) : Prop :=
  (cstr user_path).length + 1 + 9 + (cstr filename).length < 1024

instance (user_path filename : List Char) : Decidable (path_fits user_path filename) := by
  unfold path_fits; infer_instance

/-- The write step of `validate` succeeds: the scratch path fits `filepath`,
`fopen` gives a stream for it, and the count `fwrite` reports is, as the `int`
the code tests, positive. -/
def written (w : World) (user_path filename content : List Char) (size : Nat) : Prop :=
  path_fits user_path filename ∧
  w.fopen (scratch_path user_path filename) = true ∧
  0 < toInt32 (w.fwrite (scratch_path user_path filename) content size)

instance (w : World) (user_path filename content : List Char) (size : Nat) :
    Decidable (written w user_path filename content size) := by
  unfold written; infer_instance

/-- The six entry points a plugin image is required to export. -/
def required_symbols : List String :=
  ["aerospike_udf_go_get_api_version_major", "aerospike_udf_go_get_api_version_minor",
   "aerospike_udf_go_get_property", "aerospike_udf_go_setup",
   "aerospike_udf_go_apply_record", "aerospike_udf_go_apply_stream"]

/-- The code the specification gives for each missing entry point. -/
def symbol_codes : List (String × Nat) :=
  [("aerospike_udf_go_get_api_version_major", 20),
   ("aerospike_udf_go_get_api_version_minor", 21),
   ("aerospike_udf_go_get_property", 30),
   ("aerospike_udf_go_setup", 31),
   ("aerospike_udf_go_apply_record", 32),
   ("aerospike_udf_go_apply_stream", 33)]

/-! ### Concrete inputs -/

/-- A Linux host on which every pthread call succeeds and only `/tmp` opens
as a directory. -/
def host_tmp : Platform :=
  { linux := true, pthread_rwlockattr_init := 0, pthread_rwlockattr_setkind_np := 0,
    opendir := fun d => d == "/tmp".toList }

/-- A 256-byte `user_path` array holding the string `s`. -/
def config_of (s : String) : mod_go_config :=
  { user_path := s.toList ++ List.replicate (256 - s.length) NUL }

/-- An error record as a caller may pass it in. -/
def err_in : as_module_error :=
  { scope := 0, code := 0, message := [], file := [], line := 0, func := [] }

/-- A plugin image that exports `syms`, reports version `major`.0, answers
`props` for `get_property`, and whose `setup`, `apply_record` and
`apply_stream` return 0. -/
def plugin_with (syms : List String) (major : Int) (props : String → String) : Plugin :=
  { exports := fun s => decide (s ∈ syms)
    aerospike_udf_go_get_api_version_major := major
    aerospike_udf_go_get_api_version_minor := 0
    aerospike_udf_go_get_property := props
    aerospike_udf_go_setup := 0
    aerospike_udf_go_apply_record := fun _ => 0
    aerospike_udf_go_apply_stream := fun _ => 0 }

/-- A world in which every file opens, `fwrite` reports `n` bytes written,
and `dlopen` loads `image`. -/
def world_with (n : Nat) (image : Option Plugin) : World :=
  { fopen := fun _ => true, fwrite := fun _ _ _ => n, dlopen := fun _ => image }

/-- A world in which no file opens for writing. -/
def world_no_open : World :=
  { fopen := fun _ => false, fwrite := fun _ _ n => n, dlopen := fun _ => none }

/-- A context whose user path is the string `s`, the lock created. -/
def context_of (s : String) : context :=
  { config := config_of s, lock := some .mod_go_lock }

/-! ## Lemmas on buffers -/

theorem cstr_nil : cstr [] = [] := rfl

theorem cstr_cons_NUL (l : List Char) : cstr (NUL :: l) = [] := by
  simp [cstr, List.takeWhile]

theorem cstr_no_NUL (mem : List Char) : ∀ c ∈ cstr mem, c ≠ NUL := by
  intro c hc
  have := List.mem_takeWhile_imp hc
  simpa using this

theorem cstr_append_NUL (s rest : List Char) (h : ∀ c ∈ s, c ≠ NUL) :
    cstr (s ++ NUL :: rest) = s := by
  induction s with
  | nil => simp [cstr, List.takeWhile]
  | cons a t ih =>
    have ha : a ≠ NUL := h a (List.mem_cons_self _ _)
    have ht : ∀ c ∈ t, c ≠ NUL := fun c hc => h c (List.mem_cons_of_mem _ hc)
    have := ih ht
    simp only [cstr] at this ⊢
    simp [List.takeWhile_cons, ha, this]

theorem cstr_eq_nil_iff (mem : List Char) : cstr mem = [] ↔ first mem = NUL := by
  cases mem with
  | nil => simp [cstr, first]
  | cons a t =>
    by_cases ha : a = NUL
    · subst ha; simp [cstr_cons_NUL, first]
    · simp [cstr, first, List.takeWhile_cons, ha]

theorem take_cstr_length (mem : List Char) : mem.take (cstr mem).length = cstr mem := by
  induction mem with
  | nil => simp [cstr]
  | cons a t ih =>
    by_cases ha : a = NUL
    · subst ha; simp [cstr_cons_NUL]
    · simp only [cstr] at ih ⊢
      simp [List.takeWhile_cons, ha, ih]

theorem toInt32_small (n : Nat) (h : n < 2 ^ 31) : toInt32 n = (n : Int) := by
  have h1 : n % 2 ^ 32 = n := Nat.mod_eq_of_lt (by omega)
  simp only [toInt32, h1]
  rw [if_pos h]

theorem store_tail (a bytes : List Char) (k : Nat) :
    store (a ++ List.replicate k NUL) a.length bytes
      = (a ++ bytes) ++ List.replicate (k - bytes.length) NUL := by
  simp [store, List.drop_append, List.take_append]

theorem memcpy_tail (a src : List Char) (k n : Nat) (hn : n ≤ k) (z : Int) (hz : z = (n : Int)) :
    memcpy (a ++ List.replicate k NUL) a.length src z
      = some ((a ++ src.take n) ++ List.replicate (k - (src.take n).length) NUL) := by
  subst hz
  have h0 : ¬ ((n : Int) < 0) := by omega
  simp only [memcpy, h0, if_false, Int.toNat_ofNat]
  rw [if_pos (by simp; omega), store_tail _ _ _]

theorem scratch_path_no_NUL (user_path filename : List Char) :
    ∀ c ∈ scratch_path user_path filename, c ≠ NUL := by
  intro c hc
  simp only [scratch_path, List.mem_append] at hc
  rcases hc with ((hc | hc) | hc) | hc
  · exact cstr_no_NUL _ c hc
  · simp at hc; subst hc; decide
  · revert c; decide
  · exact cstr_no_NUL _ c hc

theorem build_filepath_fits (ctx : context) (filename : List Char)
    (h : path_fits ctx.config.user_path filename) :
    ∃ buf, build_filepath ctx filename = some buf ∧
      cstr buf = scratch_path ctx.config.user_path filename := by
  unfold path_fits at h
  have hpl : (cstr "validate.".toList).length = 9 := by decide
  have hp : cstr "validate.".toList = "validate.".toList := by decide
  have hpl2 : ("validate.".toList).length = 9 := by decide
  have e1 := memcpy_tail [] ctx.config.user_path 1024 (cstr ctx.config.user_path).length (by omega) _ rfl
  rw [take_cstr_length] at e1
  have e2 := memcpy_tail (cstr ctx.config.user_path) ['/']
    (1024 - (cstr ctx.config.user_path).length) 1 (by omega) 1 rfl
  have e3 := memcpy_tail (cstr ctx.config.user_path ++ ['/']) "validate.".toList
    (1024 - (cstr ctx.config.user_path).length - 1) 9 (by omega) 9 rfl
  have e4 := memcpy_tail (cstr ctx.config.user_path ++ ['/'] ++ "validate.".toList) filename
    (1024 - (cstr ctx.config.user_path).length - 1 - 9) (cstr filename).length (by omega) _ rfl
  rw [take_cstr_length] at e4
  have t9 : List.take 9 "validate.".toList = "validate.".toList := by decide
  rw [t9] at e3
  simp only [List.nil_append, List.length_nil, List.take_succ_cons, List.take_zero,
    List.length_singleton, List.length_append, hpl2] at e1 e2 e3 e4
  have e5 := store_tail (scratch_path ctx.config.user_path filename) [NUL]
    (1024 - (cstr ctx.config.user_path).length - 1 - 9 - (cstr filename).length)
  have hlen : (scratch_path ctx.config.user_path filename).length
      = (cstr ctx.config.user_path).length + 1 + 9 + (cstr filename).length := by
    simp only [scratch_path, List.length_append, hpl2, List.length_singleton]
  simp only [scratch_path] at e5 hlen
  simp only [hlen, List.length_singleton] at e5
  refine ⟨cstr ctx.config.user_path ++ ['/'] ++ "validate.".toList ++ cstr filename ++ [NUL] ++
      List.replicate (1024 - (cstr ctx.config.user_path).length - 1 - 9
        - (cstr filename).length - 1) NUL, ?_, ?_⟩
  · simp only [build_filepath, hpl, toInt32_small 9 (by norm_num),
      toInt32_small (cstr filename).length (by omega), Int.toNat_ofNat, Nat.zero_add,
      Nat.cast_ofNat]
    have h9 : (9 : Int).toNat = 9 := rfl
    rw [e1, Option.some_bind, e2, Option.some_bind, e3, Option.some_bind, h9, e4,
      Option.some_bind]
    rw [if_pos (by simp only [List.length_append, List.length_replicate, hpl2,
      List.length_singleton]; omega), e5]
  · simp only [scratch_path]
    rw [List.append_assoc _ [NUL] _]
    exact cstr_append_NUL _ _ (scratch_path_no_NUL ctx.config.user_path filename)

theorem lock_block_skipped (os : Platform) (ctx : context) (h : ctx.lock ≠ none) :
    lock_block os ctx = .skipped := by
  simp [lock_block, h]

/-- Without a lock in the context, the lock block never falls through to the
path handling: a CONFIGURE event returns 3 with the stored path untouched, or
has no defined outcome. -/
theorem update_configure_without_lock (os : Platform) (ctx : context)
    (config : mod_go_config) (h : ctx.lock = none) :
    update os (module_of ctx) (.CONFIGURE config) = none ∨
    ∃ m, update os (module_of ctx) (.CONFIGURE config) = some (3, m) ∧
      stored_user_path m = stored_user_path (module_of ctx) := by
  simp only [update, module_of, lock_block, h, if_true]
  split_ifs <;> simp [stored_user_path]

/-- A FILE_SCAN event: status 2 when the stored path is empty, 0 when it is
not; the module is left as it is. -/
theorem update_file_scan (os : Platform) (ctx : context) :
    update os (module_of ctx) .FILE_SCAN
      = some (if cstr ctx.config.user_path = [] then 2 else 0, module_of ctx) := by
  have hiff := cstr_eq_nil_iff ctx.config.user_path
  by_cases hc : first ctx.config.user_path = NUL <;>
    simp [update, module_of, hiff, hc]

/-- C10 (amended): for every context whose lock is already created, a Configure
event whose user_path is empty returns 0 and leaves the context as it was, so a
FileScanReadinessCheck event that follows fails (status 2) when the stored
user_path was empty before the Configure event, and returns 0 when it was
not. -/
theorem configure_empty_keeps_path (os : Platform) (ctx : context)
    (config : mod_go_config)
    (hempty : cstr config.user_path = [])
    (hlock : ctx.lock ≠ none) :
    update os (module_of ctx) (.CONFIGURE config) = some (0, module_of ctx) ∧
    update os (module_of ctx) .FILE_SCAN
      = some (if stored_user_path (module_of ctx) = [] then 2 else 0, module_of ctx) := by
  have hfirst : first config.user_path = NUL := (cstr_eq_nil_iff _).1 hempty
  refine ⟨?_, ?_⟩
  · simp [update, module_of, lock_block_skipped os ctx hlock, hfirst]
  · rw [update_file_scan]
    simp [stored_user_path, module_of]

/-- Counterexample to C10 as stated: in a context that has its lock and the
stored path `/tmp`, a Configure event with an empty user_path returns 0 and
changes nothing, and the FileScanReadinessCheck event that follows returns 0. -/
theorem configure_empty_then_file_scan_passes :
    cstr (config_of "").user_path = [] ∧
    update host_tmp (module_of (context_of "/tmp")) (.CONFIGURE (config_of ""))
      = some (0, module_of (context_of "/tmp")) ∧
    update host_tmp (module_of (context_of "/tmp")) .FILE_SCAN
      = some (0, module_of (context_of "/tmp")) := by
  refine ⟨by decide, ?_, ?_⟩
  · have hfirst : first (config_of "").user_path = NUL := by decide
    simp [update, module_of, lock_block, context_of, hfirst]
  · rw [update_file_scan]
    have hne : cstr (context_of "/tmp").config.user_path ≠ [] := by decide
    simp only [hne, if_false]

/-- Witness of C10 (amended): the empty Configure event in a context that has
its lock and the stored path `/tmp`. -/
theorem configure_empty_keeps_path_witness :
    cstr (config_of "").user_path = [] ∧
    (context_of "/tmp").lock ≠ none ∧
    update host_tmp (module_of (context_of "/tmp")) (.CONFIGURE (config_of ""))
      = some (0, module_of (context_of "/tmp")) ∧
    update host_tmp (module_of (context_of "/tmp")) .FILE_SCAN
      = some (if stored_user_path (module_of (context_of "/tmp")) = [] then 2 else 0,
          module_of (context_of "/tmp")) :=
  ⟨by decide, by decide,
   configure_empty_keeps_path host_tmp (context_of "/tmp") (config_of "") (by decide)
    (by decide)⟩

/-! ## Properties of `validate` -/

/-- A complete write of 1 to 2^31 - 1 bytes passes the test of the write step. -/
theorem written_of_full_write (w : World) (user_path filename content : List Char) (size : Nat)
    (hfit : path_fits user_path filename)
    (hopen : w.fopen (scratch_path user_path filename) = true)
    (hfull : w.fwrite (scratch_path user_path filename) content size = size)
    (hpos : 0 < size) (hsmall : size < 2 ^ 31) :
    written w user_path filename content size := by
  refine ⟨hfit, hopen, ?_⟩
  rw [hfull, toInt32_small size hsmall]
  exact_mod_cast hpos

theorem mem_required_symbols (p : Plugin)
    (hx : ∀ s ∈ required_symbols, p.exports s = true) :
    p.exports "aerospike_udf_go_get_api_version_major" = true ∧
    p.exports "aerospike_udf_go_get_api_version_minor" = true ∧
    p.exports "aerospike_udf_go_get_property" = true ∧
    p.exports "aerospike_udf_go_setup" = true ∧
    p.exports "aerospike_udf_go_apply_record" = true ∧
    p.exports "aerospike_udf_go_apply_stream" = true := by
  refine ⟨hx _ ?_, hx _ ?_, hx _ ?_, hx _ ?_, hx _ ?_, hx _ ?_⟩ <;> simp [required_symbols]

theorem filter_ne_not_mem (disk : List (List Char)) (f : List Char) :
    f ∉ disk.filter (fun g => g != f) := by
  simp [List.mem_filter]

/-- C1: for every module name and content written to the scratch file
successfully, and every plugin image that loads, exports the six required
entry points, reports major version 1, and whose setup and whose apply_record
for "HelloWorld" and "Foobar" return 0, `validate` returns 0, the code of the
error record is 0, and the scratch file is not on disk afterwards. -/
theorem validate_well_formed_passes (w : World) (disk : List (List Char)) (ctx : context)
    (filename content : List Char) (size : Nat) (err : as_module_error) (p : Plugin)
    (hw : written w ctx.config.user_path filename content size)
    (hload : w.dlopen (scratch_path ctx.config.user_path filename) = some p)
    (hx : ∀ s ∈ required_symbols, p.exports s = true)
    (hmajor : p.aerospike_udf_go_get_api_version_major = 1)
    (hsetup : p.aerospike_udf_go_setup = 0)
    (hhello : p.aerospike_udf_go_apply_record "HelloWorld" = 0)
    (hfoobar : p.aerospike_udf_go_apply_record "Foobar" = 0) :
    ∃ o, validate w disk { source := some ctx } filename content size err = some o ∧
      o.rc = 0 ∧ o.err.code = 0 ∧
      scratch_path ctx.config.user_path filename ∉ o.disk := by
  obtain ⟨hfit, hopen, hr⟩ := hw
  obtain ⟨buf, hb, hc⟩ := build_filepath_fits ctx filename hfit
  obtain ⟨x1, x2, x3, x4, x5, x6⟩ := mem_required_symbols p hx
  have hr' : ¬ toInt32 (w.fwrite (scratch_path ctx.config.user_path filename) content size) ≤ 0 :=
    not_le.mpr hr
  simp only [validate, hb, hc, hopen, Bool.true_eq_false, if_false, hr', hload, x1, x2, x3,
    x4, x5, x6, hmajor, hsetup, hhello, hfoobar, ne_eq, not_true_eq_false]
  refine ⟨_, rfl, ?_, ?_, ?_⟩
  · simp [Cleanup]
  · simp [Cleanup]
  · simp only [Cleanup]
    exact filter_ne_not_mem _ _

/-- Witness of C1: module `m.so` of three bytes under `/tmp`, with an image
that exports the six entry points. -/
theorem validate_well_formed_passes_witness :
    written (world_with 3 (some (plugin_with required_symbols 1 (fun _ => "true"))))
      (context_of "/tmp").config.user_path "m.so".toList "abc".toList 3 ∧
    ∃ o, validate (world_with 3 (some (plugin_with required_symbols 1 (fun _ => "true")))) []
        { source := some (context_of "/tmp") } "m.so".toList "abc".toList 3 err_in = some o ∧
      o.rc = 0 ∧ o.err.code = 0 ∧
      scratch_path (context_of "/tmp").config.user_path "m.so".toList ∉ o.disk :=
  ⟨by decide,
   validate_well_formed_passes
    (world_with 3 (some (plugin_with required_symbols 1 (fun _ => "true")))) []
    (context_of "/tmp") "m.so".toList "abc".toList 3 err_in
    (plugin_with required_symbols 1 (fun _ => "true"))
    (by decide) rfl (by decide) rfl rfl rfl rfl⟩

/-- C2: for every plugin image that loads but lacks exactly one of the six
required symbols (the others present, and the major version 1 when the
major-version query is present), `validate` returns the code of the missing
symbol (20, 21, 30, 31, 32, 33 in the order of `symbol_codes`), the error
record carries that code, and the scratch file is unlinked and not on disk
when `validate` returns. -/
theorem validate_missing_symbol_code (w : World) (disk : List (List Char)) (ctx : context)
    (filename content : List Char) (size : Nat) (err : as_module_error) (p : Plugin)
    (sc : String × Nat)
    (hw : written w ctx.config.user_path filename content size)
    (hload : w.dlopen (scratch_path ctx.config.user_path filename) = some p)
    (hsc : sc ∈ symbol_codes)
    (hmissing : p.exports sc.1 = false)
    (hothers : ∀ s ∈ required_symbols, s ≠ sc.1 → p.exports s = true)
    (hmajor : sc.1 ≠ "aerospike_udf_go_get_api_version_major" →
      p.aerospike_udf_go_get_api_version_major = 1) :
    ∃ o, validate w disk { source := some ctx } filename content size err = some o ∧
      o.rc = (sc.2 : Int) ∧ o.err.code = sc.2 ∧
      Event.unlink (scratch_path ctx.config.user_path filename) ∈ o.trace ∧
      scratch_path ctx.config.user_path filename ∉ o.disk := by
  obtain ⟨hfit, hopen, hr⟩ := hw
  obtain ⟨buf, hb, hc⟩ := build_filepath_fits ctx filename hfit
  have hr' : ¬ toInt32 (w.fwrite (scratch_path ctx.config.user_path filename) content size) ≤ 0 :=
    not_le.mpr hr
  have x1 := hothers "aerospike_udf_go_get_api_version_major" (by simp [required_symbols])
  have x2 := hothers "aerospike_udf_go_get_api_version_minor" (by simp [required_symbols])
  have x3 := hothers "aerospike_udf_go_get_property" (by simp [required_symbols])
  have x4 := hothers "aerospike_udf_go_setup" (by simp [required_symbols])
  have x5 := hothers "aerospike_udf_go_apply_record" (by simp [required_symbols])
  have x6 := hothers "aerospike_udf_go_apply_stream" (by simp [required_symbols])
  simp only [symbol_codes, List.mem_cons, List.mem_singleton, List.not_mem_nil, or_false] at hsc
  rcases hsc with h | h | h | h | h | h <;> subst h <;>
    simp only [ne_eq, String.reduceEq, not_false_eq_true, not_true_eq_false, forall_true_left,
      IsEmpty.forall_iff] at hmissing x1 x2 x3 x4 x5 x6 hmajor <;>
    simp only [validate, hb, hc, hopen, Bool.true_eq_false, if_false, if_true, hr', hload, x1, x2,
      x3, x4, x5, x6, hmajor, hmissing, ne_eq, not_true_eq_false] <;>
    refine ⟨_, rfl, ?_, ?_, ?_, ?_⟩ <;>
    first
      | exact filter_ne_not_mem _ _
      | simp [Cleanup]

/-- Witness of C2: an image without `aerospike_udf_go_setup` gets code 31. -/
theorem validate_missing_symbol_code_witness :
    written (world_with 3 (some (plugin_with
        ["aerospike_udf_go_get_api_version_major", "aerospike_udf_go_get_api_version_minor",
         "aerospike_udf_go_get_property", "aerospike_udf_go_apply_record",
         "aerospike_udf_go_apply_stream"] 1 (fun _ => "true"))))
      (context_of "/tmp").config.user_path "m.so".toList "abc".toList 3 ∧
    ∃ o, validate (world_with 3 (some (plugin_with
        ["aerospike_udf_go_get_api_version_major", "aerospike_udf_go_get_api_version_minor",
         "aerospike_udf_go_get_property", "aerospike_udf_go_apply_record",
         "aerospike_udf_go_apply_stream"] 1 (fun _ => "true")))) []
        { source := some (context_of "/tmp") } "m.so".toList "abc".toList 3 err_in = some o ∧
      o.rc = 31 ∧ o.err.code = 31 ∧
      Event.unlink (scratch_path (context_of "/tmp").config.user_path "m.so".toList) ∈ o.trace ∧
      scratch_path (context_of "/tmp").config.user_path "m.so".toList ∉ o.disk :=
  ⟨by decide,
   validate_missing_symbol_code
    (world_with 3 (some (plugin_with
        ["aerospike_udf_go_get_api_version_major", "aerospike_udf_go_get_api_version_minor",
         "aerospike_udf_go_get_property", "aerospike_udf_go_apply_record",
         "aerospike_udf_go_apply_stream"] 1 (fun _ => "true")))) []
    (context_of "/tmp") "m.so".toList "abc".toList 3 err_in
    (plugin_with
        ["aerospike_udf_go_get_api_version_major", "aerospike_udf_go_get_api_version_minor",
         "aerospike_udf_go_get_property", "aerospike_udf_go_apply_record",
         "aerospike_udf_go_apply_stream"] 1 (fun _ => "true"))
    ("aerospike_udf_go_setup", 31)
    (by decide) rfl (by decide) (by decide) (by decide) (fun _ => rfl)⟩

/-- C3: for every plugin image that loads, exports both version queries and
reports a major version other than 1, `validate` returns 22 and goes no
further: the calls it makes end with the major-version query followed by the
unlink of the scratch file, so setup, the property getter and apply_record are
never invoked, whatever else the image exports. -/
theorem validate_incompatible_major_stops (w : World) (disk : List (List Char))
    (ctx : context) (filename content : List Char) (size : Nat) (err : as_module_error)
    (p : Plugin)
    (hw : written w ctx.config.user_path filename content size)
    (hload : w.dlopen (scratch_path ctx.config.user_path filename) = some p)
    (hx1 : p.exports "aerospike_udf_go_get_api_version_major" = true)
    (hx2 : p.exports "aerospike_udf_go_get_api_version_minor" = true)
    (hmajor : p.aerospike_udf_go_get_api_version_major ≠ 1) :
    ∃ o, validate w disk { source := some ctx } filename content size err = some o ∧
      o.rc = 22 ∧ o.err.code = 22 ∧
      Event.setup ∉ o.trace ∧
      (∀ name, Event.get_property name ∉ o.trace) ∧
      (∀ name, Event.apply_record name ∉ o.trace) ∧
      o.trace = [.fopen (scratch_path ctx.config.user_path filename), .fwrite size, .fclose,
        .dlopen (scratch_path ctx.config.user_path filename),
        .dlsym "aerospike_udf_go_get_api_version_major",
        .dlsym "aerospike_udf_go_get_api_version_minor",
        .get_api_version_major,
        .unlink (scratch_path ctx.config.user_path filename)] := by
  obtain ⟨hfit, hopen, hr⟩ := hw
  obtain ⟨buf, hb, hc⟩ := build_filepath_fits ctx filename hfit
  have hr' : ¬ toInt32 (w.fwrite (scratch_path ctx.config.user_path filename) content size) ≤ 0 :=
    not_le.mpr hr
  simp only [validate, hb, hc, hopen, Bool.true_eq_false, if_false, if_true, hr', hload, hx1,
    hx2, hmajor, ne_eq, not_false_eq_true]
  refine ⟨_, rfl, ?_, ?_, ?_, ?_, ?_, ?_⟩ <;> simp [Cleanup]

/-- Witness of C3: an image that reports major version 2. -/
theorem validate_incompatible_major_stops_witness :
    written (world_with 3 (some (plugin_with required_symbols 2 (fun _ => "true"))))
      (context_of "/tmp").config.user_path "m.so".toList "abc".toList 3 ∧
    ∃ o, validate (world_with 3 (some (plugin_with required_symbols 2 (fun _ => "true")))) []
        { source := some (context_of "/tmp") } "m.so".toList "abc".toList 3 err_in = some o ∧
      o.rc = 22 ∧ o.err.code = 22 ∧
      Event.setup ∉ o.trace ∧
      (∀ name, Event.get_property name ∉ o.trace) ∧
      (∀ name, Event.apply_record name ∉ o.trace) ∧
      o.trace = [.fopen (scratch_path (context_of "/tmp").config.user_path "m.so".toList),
        .fwrite 3, .fclose,
        .dlopen (scratch_path (context_of "/tmp").config.user_path "m.so".toList),
        .dlsym "aerospike_udf_go_get_api_version_major",
        .dlsym "aerospike_udf_go_get_api_version_minor",
        .get_api_version_major,
        .unlink (scratch_path (context_of "/tmp").config.user_path "m.so".toList)] :=
  ⟨by decide,
   validate_incompatible_major_stops
    (world_with 3 (some (plugin_with required_symbols 2 (fun _ => "true")))) []
    (context_of "/tmp") "m.so".toList "abc".toList 3 err_in
    (plugin_with required_symbols 2 (fun _ => "true"))
    (by decide) rfl (by decide) (by decide) (by decide)⟩

theorem Cleanup_dlclose_iff (filepath : List Char) (err : as_module_error)
    (dlresult : Option String) (plugin : Option Plugin) (flag : Bool)
    (disk : List (List Char)) (t : List Event) (ht : Event.dlclose ∉ t) :
    Event.dlclose ∈ (Cleanup filepath err dlresult plugin flag disk t).trace ↔
      (flag = true ∧ plugin.isSome = true) := by
  simp only [Cleanup]
  split_ifs <;> simp_all

theorem Cleanup_mem_of_mem (filepath : List Char) (err : as_module_error)
    (dlresult : Option String) (plugin : Option Plugin) (flag : Bool)
    (disk : List (List Char)) (t : List Event) (ev : Event) (h : ev ∈ t) :
    ev ∈ (Cleanup filepath err dlresult plugin flag disk t).trace := by
  simp only [Cleanup]
  split_ifs <;> simp [h]

theorem Cleanup_unlink (filepath : List Char) (err : as_module_error)
    (dlresult : Option String) (plugin : Option Plugin) (flag : Bool)
    (disk : List (List Char)) (t : List Event) (ht : ∀ q, Event.unlink q ∉ t) (q : List Char) :
    Event.unlink q ∈ (Cleanup filepath err dlresult plugin flag disk t).trace ↔ q = filepath := by
  have := ht q
  simp only [Cleanup]
  split_ifs <;> simp_all

theorem Cleanup_fopen (filepath : List Char) (err : as_module_error)
    (dlresult : Option String) (plugin : Option Plugin) (flag : Bool)
    (disk : List (List Char)) (t : List Event) (q : List Char) :
    Event.fopen q ∈ (Cleanup filepath err dlresult plugin flag disk t).trace ↔
      Event.fopen q ∈ t := by
  simp only [Cleanup]
  split_ifs <;> simp

theorem Cleanup_head (filepath : List Char) (err : as_module_error)
    (dlresult : Option String) (plugin : Option Plugin) (flag : Bool)
    (disk : List (List Char)) (t : List Event) (e : Event) (ht : t.head? = some e) :
    (Cleanup filepath err dlresult plugin flag disk t).trace.head? = some e := by
  cases t with
  | nil => simp at ht
  | cons a t =>
    simp only [List.head?_cons, Option.some.injEq] at ht
    subst ht
    simp only [Cleanup]
    split_ifs <;> simp

theorem Cleanup_getLast (filepath : List Char) (err : as_module_error)
    (dlresult : Option String) (plugin : Option Plugin) (flag : Bool)
    (disk : List (List Char)) (t : List Event) :
    (Cleanup filepath err dlresult plugin flag disk t).trace.getLast?
      = some (Event.unlink filepath) := by
  simp [Cleanup]

/-- The outcome of a validation whose `fopen` fails. -/
theorem validate_open_fails (w : World) (disk : List (List Char)) (ctx : context)
    (filename content : List Char) (size : Nat) (err : as_module_error)
    (hfit : path_fits ctx.config.user_path filename)
    (hopen : w.fopen (scratch_path ctx.config.user_path filename) = false) :
    ∃ o, validate w disk { source := some ctx } filename content size err = some o ∧
      o.rc = -1 ∧ o.err.code = 0 ∧ o.disk = disk ∧
      o.trace = [.fopen (scratch_path ctx.config.user_path filename)] ∧
      o.filepath = scratch_path ctx.config.user_path filename ∧
      o.plugin = none ∧ o.plugin_supports_dlclose = false := by
  obtain ⟨buf, hb, hc⟩ := build_filepath_fits ctx filename hfit
  simp only [validate, hb, hc, hopen, if_true]
  exact ⟨_, rfl, rfl, rfl, rfl, rfl, rfl, rfl, rfl⟩

/-- The outcome of a validation whose `fwrite` reports nothing written. -/
theorem validate_write_fails (w : World) (disk : List (List Char)) (ctx : context)
    (filename content : List Char) (size : Nat) (err : as_module_error)
    (hfit : path_fits ctx.config.user_path filename)
    (hopen : w.fopen (scratch_path ctx.config.user_path filename) = true)
    (hr : toInt32 (w.fwrite (scratch_path ctx.config.user_path filename) content size) ≤ 0) :
    ∃ o, validate w disk { source := some ctx } filename content size err = some o ∧
      o.rc = -1 ∧ o.err.code = 0 ∧
      o.disk = (if scratch_path ctx.config.user_path filename ∈ disk then disk
        else scratch_path ctx.config.user_path filename :: disk) ∧
      o.trace = [.fopen (scratch_path ctx.config.user_path filename), .fwrite size, .fclose] ∧
      o.filepath = scratch_path ctx.config.user_path filename ∧
      o.plugin = none ∧ o.plugin_supports_dlclose = false := by
  obtain ⟨buf, hb, hc⟩ := build_filepath_fits ctx filename hfit
  simp only [validate, hb, hc, hopen, hr, Bool.true_eq_false, if_true, if_false]
  exact ⟨_, rfl, rfl, rfl, rfl, rfl, rfl, rfl, rfl⟩

/-- A validation whose write step passes and whose `dlopen` fails has no
defined outcome. -/
theorem validate_load_fails (w : World) (disk : List (List Char)) (ctx : context)
    (filename content : List Char) (size : Nat) (err : as_module_error)
    (hw : written w ctx.config.user_path filename content size)
    (hload : w.dlopen (scratch_path ctx.config.user_path filename) = none) :
    validate w disk { source := some ctx } filename content size err = none := by
  obtain ⟨hfit, hopen, hr⟩ := hw
  obtain ⟨buf, hb, hc⟩ := build_filepath_fits ctx filename hfit
  have hr' : ¬ toInt32 (w.fwrite (scratch_path ctx.config.user_path filename) content size) ≤ 0 :=
    not_le.mpr hr
  simp only [validate, hb, hc, hopen, hr', hload, Bool.true_eq_false, if_false]

set_option maxHeartbeats 4000000 in
/-- The outcome of a validation whose write step passes and whose image loads:
a pass through `Cleanup` after the four calls of the write and load steps and
further calls, none of them a dlclose, an unlink or an fopen. -/
theorem validate_loaded (w : World) (disk : List (List Char)) (ctx : context)
    (filename content : List Char) (size : Nat) (err : as_module_error) (p : Plugin)
    (hw : written w ctx.config.user_path filename content size)
    (hload : w.dlopen (scratch_path ctx.config.user_path filename) = some p) :
    ∃ e dl fl rest, validate w disk { source := some ctx } filename content size err =
        some (Cleanup (scratch_path ctx.config.user_path filename) e dl (some p) fl
          (if scratch_path ctx.config.user_path filename ∈ disk then disk
            else scratch_path ctx.config.user_path filename :: disk)
          (.fopen (scratch_path ctx.config.user_path filename) :: .fwrite size :: .fclose ::
            .dlopen (scratch_path ctx.config.user_path filename) :: rest)) ∧
      (fl = true → p.aerospike_udf_go_get_property "dlclose-supported" = "true") ∧
      Event.dlclose ∉ rest ∧ (∀ q, Event.unlink q ∉ rest) ∧ (∀ q, Event.fopen q ∉ rest) := by
  obtain ⟨hfit, h1, hr⟩ := hw
  obtain ⟨buf, hb, hc⟩ := build_filepath_fits ctx filename hfit
  have h2 : ¬ toInt32 (w.fwrite (scratch_path ctx.config.user_path filename) content size) ≤ 0 :=
    not_le.mpr hr
  have hd := hload
  by_cases x1 : p.exports "aerospike_udf_go_get_api_version_major" = false
  · simp only [validate, hb, hc, h1, h2, hd, x1, ne_eq, not_true_eq_false,
      not_false_eq_true, Bool.true_eq_false, if_true, if_false, List.cons_append,
      List.nil_append, List.append_assoc]
    refine ⟨_, _, _, _, rfl, ?_, ?_, ?_, ?_⟩ <;> simp
  by_cases x2 : p.exports "aerospike_udf_go_get_api_version_minor" = false
  · simp only [validate, hb, hc, h1, h2, hd, x1, x2, ne_eq, not_true_eq_false,
      not_false_eq_true, Bool.true_eq_false, if_true, if_false, List.cons_append,
      List.nil_append, List.append_assoc]
    refine ⟨_, _, _, _, rfl, ?_, ?_, ?_, ?_⟩ <;> simp
  by_cases hm : p.aerospike_udf_go_get_api_version_major = 1
  swap
  · simp only [validate, hb, hc, h1, h2, hd, x1, x2, hm, ne_eq, not_true_eq_false,
      not_false_eq_true, Bool.true_eq_false, if_true, if_false, List.cons_append,
      List.nil_append, List.append_assoc]
    refine ⟨_, _, _, _, rfl, ?_, ?_, ?_, ?_⟩ <;> simp
  by_cases x3 : p.exports "aerospike_udf_go_get_property" = false
  · simp only [validate, hb, hc, h1, h2, hd, x1, x2, hm, x3, ne_eq, not_true_eq_false,
      not_false_eq_true, Bool.true_eq_false, if_true, if_false, List.cons_append,
      List.nil_append, List.append_assoc]
    refine ⟨_, _, _, _, rfl, ?_, ?_, ?_, ?_⟩ <;> simp
  by_cases x4 : p.exports "aerospike_udf_go_setup" = false
  · simp only [validate, hb, hc, h1, h2, hd, x1, x2, hm, x3, x4, ne_eq, not_true_eq_false,
      not_false_eq_true, Bool.true_eq_false, if_true, if_false, List.cons_append,
      List.nil_append, List.append_assoc]
    refine ⟨_, _, _, _, rfl, ?_, ?_, ?_, ?_⟩ <;> simp
  by_cases x5 : p.exports "aerospike_udf_go_apply_record" = false
  · simp only [validate, hb, hc, h1, h2, hd, x1, x2, hm, x3, x4, x5, ne_eq, not_true_eq_false,
      not_false_eq_true, Bool.true_eq_false, if_true, if_false, List.cons_append,
      List.nil_append, List.append_assoc]
    refine ⟨_, _, _, _, rfl, ?_, ?_, ?_, ?_⟩ <;> simp
  by_cases x6 : p.exports "aerospike_udf_go_apply_stream" = false
  · simp only [validate, hb, hc, h1, h2, hd, x1, x2, hm, x3, x4, x5, x6, ne_eq, not_true_eq_false,
      not_false_eq_true, Bool.true_eq_false, if_true, if_false, List.cons_append,
      List.nil_append, List.append_assoc]
    refine ⟨_, _, _, _, rfl, ?_, ?_, ?_, ?_⟩ <;> simp
  by_cases hs : p.aerospike_udf_go_setup = 0
  swap
  · simp only [validate, hb, hc, h1, h2, hd, x1, x2, hm, x3, x4, x5, x6, hs, ne_eq, not_true_eq_false,
      not_false_eq_true, Bool.true_eq_false, if_true, if_false, List.cons_append,
      List.nil_append, List.append_assoc]
    refine ⟨_, _, _, _, rfl, ?_, ?_, ?_, ?_⟩ <;> simp
  by_cases hh : p.aerospike_udf_go_apply_record "HelloWorld" = 0
  swap
  · simp only [validate, hb, hc, h1, h2, hd, x1, x2, hm, x3, x4, x5, x6, hs, hh, ne_eq, not_true_eq_false,
      not_false_eq_true, Bool.true_eq_false, if_true, if_false, List.cons_append,
      List.nil_append, List.append_assoc]
    refine ⟨_, _, _, _, rfl, ?_, ?_, ?_, ?_⟩ <;> simp
  by_cases hf : p.aerospike_udf_go_apply_record "Foobar" = 0
  swap
  · simp only [validate, hb, hc, h1, h2, hd, x1, x2, hm, x3, x4, x5, x6, hs, hh, hf, ne_eq, not_true_eq_false,
      not_false_eq_true, Bool.true_eq_false, if_true, if_false, List.cons_append,
      List.nil_append, List.append_assoc]
    refine ⟨_, _, _, _, rfl, ?_, ?_, ?_, ?_⟩ <;> simp
  simp only [validate, hb, hc, h1, h2, hd, x1, x2, hm, x3, x4, x5, x6, hs, hh, hf, ne_eq, not_true_eq_false,
    not_false_eq_true, Bool.true_eq_false, if_true, if_false, List.cons_append,
    List.nil_append, List.append_assoc]
  refine ⟨_, _, _, _, rfl, ?_, ?_, ?_, ?_⟩ <;> simp

/-- The outcome of a validation that passes every step. -/
theorem validate_pass (w : World) (disk : List (List Char)) (ctx : context)
    (filename content : List Char) (size : Nat) (err : as_module_error) (p : Plugin)
    (hw : written w ctx.config.user_path filename content size)
    (hload : w.dlopen (scratch_path ctx.config.user_path filename) = some p)
    (hx : ∀ s ∈ required_symbols, p.exports s = true)
    (hmajor : p.aerospike_udf_go_get_api_version_major = 1)
    (hsetup : p.aerospike_udf_go_setup = 0)
    (hhello : p.aerospike_udf_go_apply_record "HelloWorld" = 0)
    (hfoobar : p.aerospike_udf_go_apply_record "Foobar" = 0) :
    ∃ e t, validate w disk { source := some ctx } filename content size err =
      some (Cleanup (scratch_path ctx.config.user_path filename) e none (some p)
        (p.aerospike_udf_go_get_property "dlclose-supported" == "true")
        (if scratch_path ctx.config.user_path filename ∈ disk then disk
          else scratch_path ctx.config.user_path filename :: disk) t) ∧
      e.code = 0 ∧ Event.dlopen (scratch_path ctx.config.user_path filename) ∈ t := by
  obtain ⟨hfit, hopen, hr⟩ := hw
  obtain ⟨buf, hb, hc⟩ := build_filepath_fits ctx filename hfit
  obtain ⟨x1, x2, x3, x4, x5, x6⟩ := mem_required_symbols p hx
  have hr' : ¬ toInt32 (w.fwrite (scratch_path ctx.config.user_path filename) content size) ≤ 0 :=
    not_le.mpr hr
  simp only [validate, hb, hc, hopen, Bool.true_eq_false, if_false, hr', hload, x1, x2, x3,
    x4, x5, x6, hmajor, hsetup, hhello, hfoobar, ne_eq, not_true_eq_false]
  refine ⟨_, _, rfl, rfl, ?_⟩
  simp

/-- C5 (amended): for every plugin whose property getter returns "false" for
the property named "dlclose-supported", `validate` never unloads the module
image, even when validation succeeds; and in general `validate` calls dlclose
if and only if the flag recorded from that property is true and a load handle
was obtained, the flag being true only when the loaded image answers "true"
for that property.  This is for every call whose path fits and whose `dlopen`
gives an image when the write step passes: after a failed `dlopen` the source
has no defined outcome (`validate_load_fails`). -/
theorem validate_dlclose_iff (w : World) (disk : List (List Char)) (ctx : context)
    (filename content : List Char) (size : Nat) (err : as_module_error)
    (hfit : path_fits ctx.config.user_path filename)
    (hloads : written w ctx.config.user_path filename content size →
      (w.dlopen (scratch_path ctx.config.user_path filename)).isSome = true) :
    ∃ o, validate w disk { source := some ctx } filename content size err = some o ∧
      (∀ p, w.dlopen (scratch_path ctx.config.user_path filename) = some p →
        p.aerospike_udf_go_get_property "dlclose-supported" = "false" →
        Event.dlclose ∉ o.trace) ∧
      (Event.dlclose ∈ o.trace ↔
        (o.plugin_supports_dlclose = true ∧ o.plugin.isSome = true)) ∧
      (o.plugin_supports_dlclose = true →
        ∃ p, w.dlopen (scratch_path ctx.config.user_path filename) = some p ∧
          p.aerospike_udf_go_get_property "dlclose-supported" = "true") := by
  by_cases h1 : w.fopen (scratch_path ctx.config.user_path filename) = false
  · obtain ⟨o, ho, -, -, -, ht, -, hp, hfl⟩ :=
      validate_open_fails w disk ctx filename content size err hfit h1
    exact ⟨o, ho, by simp [ht, hp, hfl]⟩
  have h1' : w.fopen (scratch_path ctx.config.user_path filename) = true := by
    simpa using h1
  by_cases h2 : toInt32 (w.fwrite (scratch_path ctx.config.user_path filename) content size) ≤ 0
  · obtain ⟨o, ho, -, -, -, ht, -, hp, hfl⟩ :=
      validate_write_fails w disk ctx filename content size err hfit h1' h2
    exact ⟨o, ho, by simp [ht, hp, hfl]⟩
  have hw : written w ctx.config.user_path filename content size :=
    ⟨hfit, h1', not_le.mp h2⟩
  obtain ⟨p, hp⟩ := Option.isSome_iff_exists.mp (hloads hw)
  obtain ⟨e, dl, fl, rest, hv, hflag, hnc, -, -⟩ :=
    validate_loaded w disk ctx filename content size err p hw hp
  have hnc' : Event.dlclose ∉ (Event.fopen (scratch_path ctx.config.user_path filename) ::
      .fwrite size :: .fclose ::
      .dlopen (scratch_path ctx.config.user_path filename) :: rest) := by
    simp [hnc]
  have hiff := Cleanup_dlclose_iff (scratch_path ctx.config.user_path filename) e dl (some p) fl
    (if scratch_path ctx.config.user_path filename ∈ disk then disk
      else scratch_path ctx.config.user_path filename :: disk) _ hnc'
  refine ⟨_, hv, ?_, hiff, fun hfl => ⟨p, hp, hflag hfl⟩⟩
  intro q hq hfalse hmem
  rw [hp, Option.some.injEq] at hq
  subst hq
  have htrue := hflag (hiff.1 hmem).1
  rw [hfalse] at htrue
  exact absurd htrue (by decide)

/-- Witness of C5 (amended): an image that answers "false" to every property
passes validation and is not unloaded. -/
theorem validate_dlclose_iff_witness :
    path_fits (context_of "/tmp").config.user_path "m.so".toList ∧
    (world_with 3 (some (plugin_with required_symbols 1 (fun _ => "false")))).dlopen
      (scratch_path (context_of "/tmp").config.user_path "m.so".toList)
      = some (plugin_with required_symbols 1 (fun _ => "false")) ∧
    (plugin_with required_symbols 1 (fun _ => "false")).aerospike_udf_go_get_property
      "dlclose-supported" = "false" ∧
    ∃ o, validate (world_with 3 (some (plugin_with required_symbols 1 (fun _ => "false")))) []
        { source := some (context_of "/tmp") } "m.so".toList "abc".toList 3 err_in = some o ∧
      Event.dlclose ∉ o.trace :=
  ⟨by decide, rfl, rfl,
   (validate_dlclose_iff
      (world_with 3 (some (plugin_with required_symbols 1 (fun _ => "false")))) []
      (context_of "/tmp") "m.so".toList "abc".toList 3 err_in (by decide) (fun _ => rfl)).imp
    (fun _ h => ⟨h.1, h.2.1 _ rfl rfl⟩)⟩

/-- Counterexample to C5 as stated: an image that answers "false" for the
property "unload-supported" and "true" for every other property (the one
`validate` asks for is "dlclose-supported") passes validation and is
unloaded. -/
theorem validate_unload_supported_false_unloads :
    (plugin_with required_symbols 1
      (fun n => if n = "unload-supported" then "false" else "true")).aerospike_udf_go_get_property
        "unload-supported" = "false" ∧
    ∃ o, validate (world_with 3 (some (plugin_with required_symbols 1
          (fun n => if n = "unload-supported" then "false" else "true")))) []
        { source := some (context_of "/tmp") } "m.so".toList "abc".toList 3 err_in = some o ∧
      o.rc = 0 ∧ Event.dlclose ∈ o.trace := by
  obtain ⟨e, t, hv, he, -⟩ := validate_pass (world_with 3 (some (plugin_with required_symbols 1
      (fun n => if n = "unload-supported" then "false" else "true")))) []
    (context_of "/tmp") "m.so".toList "abc".toList 3 err_in
    (plugin_with required_symbols 1 (fun n => if n = "unload-supported" then "false" else "true"))
    (by decide) rfl (by decide) rfl rfl rfl rfl
  refine ⟨by decide, _, hv, ?_, ?_⟩
  · simp [Cleanup, he]
  · have hflag : ((plugin_with required_symbols 1
        (fun n => if n = "unload-supported" then "false" else "true")).aerospike_udf_go_get_property
          "dlclose-supported" == "true") = true := by decide
    simp [Cleanup, hflag]

/-- C4 (failing input): a module with empty content.  `fopen` creates the
scratch file, `fwrite` of zero bytes reports 0, and `validate` returns -1 from
the write step: the scratch file is on disk at the return and no unlink was
made. -/
theorem validate_empty_content_leaves_scratch_file :
    ∃ o, validate (world_with 0 none) [] { source := some (context_of "/tmp") }
        "m.so".toList [] 0 err_in = some o ∧
      o.rc = -1 ∧
      scratch_path (context_of "/tmp").config.user_path "m.so".toList ∈ o.disk ∧
      ∀ q, Event.unlink q ∉ o.trace := by
  obtain ⟨o, ho, hrc, -, hdisk, htrace, -⟩ := validate_write_fails (world_with 0 none) []
    (context_of "/tmp") "m.so".toList [] 0 err_in (by decide) rfl (by decide)
  refine ⟨o, ho, hrc, ?_, ?_⟩
  · rw [hdisk]; simp
  · intro q; rw [htrace]; simp

/-- C6 (failing inputs): when `fopen` fails `validate` returns -1 while the
code of the error record stays 0; and when `fwrite` reports 1 byte written of
the 3 asked for, `validate` goes on to load the module and returns 0. -/
theorem validate_write_step_not_reported :
    (∃ o, validate world_no_open [] { source := some (context_of "/tmp") }
        "m.so".toList "abc".toList 3 err_in = some o ∧
      o.rc = -1 ∧ o.err.code = 0) ∧
    (∃ o, validate (world_with 1 (some (plugin_with required_symbols 1 (fun _ => "true")))) []
        { source := some (context_of "/tmp") } "m.so".toList "abc".toList 3 err_in = some o ∧
      Event.dlopen (scratch_path (context_of "/tmp").config.user_path "m.so".toList) ∈ o.trace ∧
      o.rc = 0) := by
  constructor
  · obtain ⟨o, ho, hrc, hcode, -⟩ := validate_open_fails world_no_open []
      (context_of "/tmp") "m.so".toList "abc".toList 3 err_in (by decide) rfl
    exact ⟨o, ho, hrc, hcode⟩
  · obtain ⟨e, t, hv, he, ht⟩ := validate_pass
      (world_with 1 (some (plugin_with required_symbols 1 (fun _ => "true")))) []
      (context_of "/tmp") "m.so".toList "abc".toList 3 err_in
      (plugin_with required_symbols 1 (fun _ => "true"))
      (by decide) rfl (by decide) rfl rfl rfl rfl
    refine ⟨_, hv, ?_, ?_⟩
    · exact Cleanup_mem_of_mem _ _ _ _ _ _ _ _ ht
    · simp [Cleanup, he]

/-- C7: for every stored user path and every module name that fit the
1024-byte `filepath` array with the terminator, the path in `filepath` is the
user path, "/", "validate." and the module name in a row; the first call made
is the `fopen` of that path, and every `fopen` and every `unlink` made is of
that path; and when the write step passes, the content is written after that
`fopen`, the last call made is the `unlink` of that path, and the path is not
on disk at the return.  (A call whose write step does not pass returns without
the unlink: that is the defect of C4.  A call whose `dlopen` fails has no
defined outcome in the source, and is left out.) -/
theorem validate_scratch_path (w : World) (disk : List (List Char)) (ctx : context)
    (filename content : List Char) (size : Nat) (err : as_module_error)
    (hfit : (cstr ctx.config.user_path).length + 1 + 9 + (cstr filename).length < 1024)
    (hloads : written w ctx.config.user_path filename content size →
      (w.dlopen (scratch_path ctx.config.user_path filename)).isSome = true) :
    ∃ o, validate w disk { source := some ctx } filename content size err = some o ∧
      o.filepath = cstr ctx.config.user_path ++ ['/'] ++ "validate.".toList ++ cstr filename ∧
      o.trace.head? = some (.fopen o.filepath) ∧
      (∀ q, Event.fopen q ∈ o.trace → q = o.filepath) ∧
      (∀ q, Event.unlink q ∈ o.trace → q = o.filepath) ∧
      (written w ctx.config.user_path filename content size →
        (∃ rest, o.trace = .fopen o.filepath :: .fwrite size :: .fclose :: rest) ∧
        o.trace.getLast? = some (.unlink o.filepath) ∧
        o.filepath ∉ o.disk) := by
  have hfit' : path_fits ctx.config.user_path filename := hfit
  by_cases h1 : w.fopen (scratch_path ctx.config.user_path filename) = false
  · obtain ⟨o, ho, -, -, -, ht, hfp, -, -⟩ :=
      validate_open_fails w disk ctx filename content size err hfit' h1
    refine ⟨o, ho, hfp, ?_, ?_, ?_, ?_⟩
    · simp [ht, hfp]
    · simp [ht, hfp]
    · simp [ht]
    · intro hw
      rw [hw.2.1] at h1
      exact absurd h1 (by decide)
  have h1' : w.fopen (scratch_path ctx.config.user_path filename) = true := by
    simpa using h1
  by_cases h2 : toInt32 (w.fwrite (scratch_path ctx.config.user_path filename) content size) ≤ 0
  · obtain ⟨o, ho, -, -, -, ht, hfp, -, -⟩ :=
      validate_write_fails w disk ctx filename content size err hfit' h1' h2
    refine ⟨o, ho, hfp, ?_, ?_, ?_, ?_⟩
    · simp [ht, hfp]
    · simp [ht, hfp]
    · simp [ht]
    · intro hw
      exact absurd hw.2.2 (not_lt.mpr h2)
  have hw : written w ctx.config.user_path filename content size :=
    ⟨hfit', h1', not_le.mp h2⟩
  obtain ⟨p, hp⟩ := Option.isSome_iff_exists.mp (hloads hw)
  obtain ⟨e, dl, fl, rest, hv, -, -, hnu, hnf⟩ :=
    validate_loaded w disk ctx filename content size err p hw hp
  have hfp : (Cleanup (scratch_path ctx.config.user_path filename) e dl (some p) fl
      (if scratch_path ctx.config.user_path filename ∈ disk then disk
        else scratch_path ctx.config.user_path filename :: disk)
      (.fopen (scratch_path ctx.config.user_path filename) :: .fwrite size :: .fclose ::
        .dlopen (scratch_path ctx.config.user_path filename) :: rest)).filepath
      = scratch_path ctx.config.user_path filename := rfl
  refine ⟨_, hv, hfp, ?_, ?_, ?_, ?_⟩
  · rw [hfp]
    exact Cleanup_head _ _ _ _ _ _ _ _ rfl
  · intro q hq
    rw [hfp]
    have := (Cleanup_fopen _ _ _ _ _ _ _ q).1 hq
    have hq' := hnf q
    simpa [hq'] using this
  · intro q hq
    rw [hfp]
    refine (Cleanup_unlink _ _ _ _ _ _ _ ?_ q).1 hq
    intro r
    have := hnu r
    simp [this]
  · intro _
    rw [hfp]
    refine ⟨?_, Cleanup_getLast _ _ _ _ _ _ _, filter_ne_not_mem _ _⟩
    simp only [Cleanup]
    split_ifs <;> simp

/-- Witness of C7: module `m.so` under the default user path, with a write
that passes and an image that loads. -/
theorem validate_scratch_path_witness :
    (cstr mod_go_source.config.user_path).length + 1 + 9 + (cstr "m.so".toList).length < 1024 ∧
    written (world_with 3 (some (plugin_with required_symbols 1 (fun _ => "true"))))
      mod_go_source.config.user_path "m.so".toList "abc".toList 3 ∧
    ∃ o, validate (world_with 3 (some (plugin_with required_symbols 1 (fun _ => "true")))) []
        { source := some mod_go_source } "m.so".toList "abc".toList 3 err_in = some o ∧
      o.filepath = cstr mod_go_source.config.user_path ++ ['/'] ++ "validate.".toList
        ++ cstr "m.so".toList ∧
      o.trace.head? = some (.fopen o.filepath) ∧
      (∃ rest, o.trace = .fopen o.filepath :: .fwrite 3 :: .fclose :: rest) ∧
      o.trace.getLast? = some (.unlink o.filepath) ∧
      o.filepath ∉ o.disk :=
  ⟨by decide, by decide,
   (validate_scratch_path (world_with 3 (some (plugin_with required_symbols 1 (fun _ => "true"))))
      [] mod_go_source "m.so".toList "abc".toList 3 err_in (by decide) (fun _ => rfl)).imp
    (fun _ h => ⟨h.1, h.2.1, h.2.2.1,
      (h.2.2.2.2.2 (by decide)).1, (h.2.2.2.2.2 (by decide)).2.1,
      (h.2.2.2.2.2 (by decide)).2.2⟩)⟩

end ModGo
